import Mathlib

/-!
# Traffic-light automaton (`src/main.c`)

A shallow embedding of the four-light intersection automaton: the global
variables become the fields of `State`, every C function becomes a function on
`State`, and the unbounded driver loop of `main` is run on a finite prefix of
the values delivered by `__VERIFIER_nondet_int`.

The file is compiled with `VERIFY` defined and with `DEBUG` and `REGULAROUTPUT`
undefined, so `debug_print` and `regular_print` expand to `do {} while (0)`.
-/

namespace TrafficLight

/-- The phases of a light: `enum color {Red, Yellow, Green, Off}`. -/
inductive color where
  | Red
  | Yellow
  | Green
  | Off
  deriving DecidableEq, Repr

open color

/-- All global variables of the program. `stepNumber` is an `unsigned int`
(a natural number below `2 ^ 32`), `switchState` is an `int`. -/
structure State where
  stateA : color
  stateB : color
  stateC : color
  stateD : color
  stepNumber : Nat
  dir : Bool
  switchState : Int
  lastA : color
  lastB : color
  lastC : color
  lastD : color
  deriving DecidableEq, Repr

/-- The initial values of the globals (lines 65-77). -/
def initial : State :=
  { stateA := Off, stateB := Off, stateC := Off, stateD := Off,
    stepNumber := 0, dir := false, switchState := 0,
    lastA := Off, lastB := Off, lastC := Off, lastD := Off }

/-- Width modulus of `unsigned int`. -/
def UINT_MODULUS : Nat := 2 ^ 32

/-- `stepA` (lines 93-121): advances light A, the only writer of `dir`. -/
def stepA (s : State) : State :=
  if s.switchState = 0 then
    { s with stateA := Off }
  else
    match s.stateA with
    | Red => { s with stateA := Yellow }
    | Yellow =>
      if s.dir then
        { s with stateA := Green, dir := !s.dir }
      else
        { s with stateA := Red, dir := !s.dir }
    | Green => { s with stateA := Yellow }
    | Off =>
      if s.switchState ≠ 0 then
        { s with stateA := Green, dir := false }
      else
        s

/-- `stepD` (lines 124-126): D copies A. -/
def stepD (s : State) : State :=
  { s with stateD := s.stateA }

/-- `stepC` (lines 131-156): advances light C, reading `dir`. -/
def stepC (s : State) : State :=
  if s.switchState = 0 then
    { s with stateC := Off }
  else
    match s.stateC with
    | Red => { s with stateC := Yellow }
    | Yellow =>
      if !s.dir then
        { s with stateC := Red }
      else
        { s with stateC := Green }
    | Green => { s with stateC := Yellow }
    | Off =>
      if s.switchState ≠ 0 then
        { s with stateC := Red }
      else
        s

/-- `stepB` (lines 159-161): B copies C. -/
def stepB (s : State) : State :=
  { s with stateB := s.stateC }

/-- `printStates` (lines 163-170): `regular_print` is empty, so no effect. -/
def printStates (s : State) : State := s

/-- `stepLights` (lines 172-179). -/
def stepLights (s : State) : State :=
  let s := stepA s
  let s := stepC s
  let s := stepB s
  let s := stepD s
  let s := printStates s
  { s with stepNumber := (s.stepNumber + 1) % UINT_MODULUS }

/-- `successorsValid` (lines 181-208). -/
def successorsValid (firstColor secondColor : color) : Bool :=
  if secondColor = Off then
    true
  else
    match firstColor with
    | Red => secondColor == Yellow || secondColor == firstColor
    | Yellow => secondColor == Green || secondColor == Red || secondColor == firstColor
    | Green => secondColor == Yellow || secondColor == firstColor
    | Off => secondColor == firstColor || secondColor == Red || secondColor == Green

/-- `propertiesHold` (lines 210-247): the returned flag and the globals after
the call. -/
def propertiesHold (s : State) : Bool × State :=
  let violationOccurred := false
  let violationOccurred :=
    if s.stateA == Green && s.dir then true else violationOccurred
  let violationOccurred :=
    if !(s.stateA == s.stateD) then true else violationOccurred
  let violationOccurred :=
    if !(s.stateB == s.stateC) then true else violationOccurred
  let violationOccurred :=
    if !successorsValid s.lastA s.stateA then true else violationOccurred
  let violationOccurred :=
    if !successorsValid s.lastB s.stateB then true else violationOccurred
  let violationOccurred :=
    if !successorsValid s.lastC s.stateC then true else violationOccurred
  let violationOccurred :=
    if !successorsValid s.lastD s.stateD then true else violationOccurred
  (!violationOccurred,
    { s with lastA := s.stateA, lastB := s.stateB, lastC := s.stateC, lastD := s.stateD })

/-- `getUserInput` under `VERIFY` (lines 260-263): `switchState` receives the
nondeterministic value; `none` when `__VERIFIER_assume` cuts the execution. -/
def getUserInput (nondet : Int) (s : State) : Option State :=
  let s := { s with switchState := nondet }
  if s.switchState = 0 ∨ s.switchState = 1 then some s else none

/-- How an execution of `main` on a finite prefix of inputs ends. -/
inductive Outcome where
  /-- every input consumed, the loop is still running in this state -/
  | running (s : State)
  /-- `VERIFIER_ERROR()` was reached in this state -/
  | verifierError (s : State)
  /-- `__VERIFIER_assume` rejected the sampled value -/
  | assumeFailed
  deriving DecidableEq, Repr

/-- The `for (;;)` loop of `main` (lines 273-279) on the given nondeterministic
values: the return values of the `propertiesHold` calls made, in order, and how
the execution ends. Reaching `__VERIFIER_error()` ends the execution. -/
def mainLoop : List Int → State → List Bool × Outcome
  | [], s => ([], Outcome.running s)
  | v :: vs, s =>
    match getUserInput v s with
    | none => ([], Outcome.assumeFailed)
    | some s =>
      let s := stepLights s
      let r := propertiesHold s
      if !r.1 then
        ([r.1], Outcome.verifierError r.2)
      else
        let rest := mainLoop vs r.2
        (r.1 :: rest.1, rest.2)

/-- `main` (lines 265-281) from the state `s` of the globals. -/
def mainFrom (s : State) (inputs : List Int) : List Bool × Outcome :=
  let s := printStates s
  let r := propertiesHold s
  if !r.1 then
    ([r.1], Outcome.verifierError r.2)
  else
    let rest := mainLoop inputs r.2
    (r.1 :: rest.1, rest.2)

/-- `main` started on the initial globals. -/
def main (inputs : List Int) : List Bool × Outcome :=
  mainFrom initial inputs

/-- One iteration of the loop without the check: sample `v` into `switchState`
and call `stepLights`. -/
def stepInput (s : State) (v : Int) : State :=
  stepLights { s with switchState := v }

/-- The state after `stepLights` has been called once per input, in order. -/
def runSteps (s : State) (inputs : List Int) : State :=
  inputs.foldl stepInput s

/-- The four lights of the intersection. -/
inductive Light where
  | A
  | B
  | C
  | D
  deriving DecidableEq, Repr

/-- The current phase of a light. -/
def phase (s : State) : Light → color
  | Light.A => s.stateA
  | Light.B => s.stateB
  | Light.C => s.stateC
  | Light.D => s.stateD

/-- The inductive invariant of the automaton: B and D mirror C and A, and the
pair of driven lights (with `dir`) is in one of the four phases of the cycle. -/
def Inv (s : State) : Prop :=
  s.stateB = s.stateC ∧ s.stateD = s.stateA ∧
    ((s.stateA = Off ∧ s.stateC = Off) ∨
     (s.stateA = Green ∧ s.stateC = Red ∧ s.dir = false) ∨
     (s.stateA = Yellow ∧ s.stateC = Yellow) ∨
     (s.stateA = Red ∧ s.stateC = Green ∧ s.dir = true))

instance (s : State) : Decidable (Inv s) := by
  unfold Inv
  infer_instance

/-- The history snapshot equals the current phases, as after `propertiesHold`. -/
def Synced (s : State) : Prop :=
  s.lastA = s.stateA ∧ s.lastB = s.stateB ∧ s.lastC = s.stateC ∧ s.lastD = s.stateD

instance (s : State) : Decidable (Synced s) := by
  unfold Synced
  infer_instance

/-- A state with A and D Red, C and B Green, `dir` false, the history equal to
the phases and the power input sampled as 0. -/
def redGreenState : State :=
  { stateA := Red, stateB := Green, stateC := Green, stateD := Red,
    stepNumber := 3, dir := false, switchState := 0,
    lastA := Red, lastB := Green, lastC := Green, lastD := Red }

/-- The all-Off state with `dir` true and the power input sampled as 1. -/
def offDirTrueState : State :=
  { stateA := Off, stateB := Off, stateC := Off, stateD := Off,
    stepNumber := 0, dir := true, switchState := 1,
    lastA := Off, lastB := Off, lastC := Off, lastD := Off }

/-- The initial state with `stepNumber` at the largest `unsigned int`. -/
def maxStepState : State :=
  { stateA := Off, stateB := Off, stateC := Off, stateD := Off,
    stepNumber := 4294967295, dir := false, switchState := 0,
    lastA := Off, lastB := Off, lastC := Off, lastD := Off }

/-- A powered state with light C Yellow and `dir` as given. -/
def yellowCState (d : Bool) : State :=
  { stateA := Yellow, stateB := Yellow, stateC := Yellow, stateD := Yellow,
    stepNumber := 2, dir := d, switchState := 1,
    lastA := Yellow, lastB := Yellow, lastC := Yellow, lastD := Yellow }

/-- The state after `n` steps from the initial state with input 1 every time. -/
def onesRun (n : Nat) : State :=
  runSteps initial (List.replicate n 1)

/-! ## Shared lemmas -/

theorem inv_initial : Inv initial := by
  decide

theorem inv_stepInput (s : State) (v : Int) (hv : v = 0 ∨ v = 1) (h : Inv s) :
    Inv (stepInput s v) := by
  obtain ⟨a, b, c, d, n, dr, sw, la, lb, lc, ld⟩ := s
  obtain ⟨hb, hd, hc⟩ := h
  simp only at hb hd hc
  subst hb hd
  rcases hv with rfl | rfl
  · simp [Inv, stepInput, stepLights, stepA, stepC, stepB, stepD, printStates]
  · cases dr <;>
      rcases hc with ⟨rfl, rfl⟩ | ⟨rfl, rfl, hdir⟩ | ⟨rfl, rfl⟩ | ⟨rfl, rfl, hdir⟩ <;>
      simp [Inv, stepInput, stepLights, stepA, stepC, stepB, stepD, printStates]

theorem inv_runSteps (inputs : List Int) (s : State)
    (hin : ∀ v ∈ inputs, v = 0 ∨ v = 1) (h : Inv s) : Inv (runSteps s inputs) := by
  induction inputs generalizing s with
  | nil => exact h
  | cons v vs ih =>
    have hv : v = 0 ∨ v = 1 := hin v (List.mem_cons_self v vs)
    have hvs : ∀ w ∈ vs, w = 0 ∨ w = 1 := fun w hw => hin w (List.mem_cons_of_mem v hw)
    exact ih (stepInput s v) hvs (inv_stepInput s v hv h)

theorem successorsValid_stepInput (s : State) (v : Int) (hv : v = 0 ∨ v = 1) (h : Inv s)
    (l : Light) : successorsValid (phase s l) (phase (stepInput s v) l) = true := by
  obtain ⟨a, b, c, d, n, dr, sw, la, lb, lc, ld⟩ := s
  obtain ⟨hb, hd, hc⟩ := h
  simp only at hb hd hc
  subst hb hd
  rcases hv with rfl | rfl
  · cases l <;>
      simp [phase, successorsValid, stepInput, stepLights, stepA, stepC, stepB, stepD,
        printStates]
  · cases dr <;>
      rcases hc with ⟨rfl, rfl⟩ | ⟨rfl, rfl, hdir⟩ | ⟨rfl, rfl⟩ | ⟨rfl, rfl, hdir⟩ <;>
      cases l <;>
      simp [phase, successorsValid, stepInput, stepLights, stepA, stepC, stepB, stepD,
        printStates]

theorem stepInput_last (s : State) (v : Int) :
    (stepInput s v).lastA = s.lastA ∧ (stepInput s v).lastB = s.lastB ∧
      (stepInput s v).lastC = s.lastC ∧ (stepInput s v).lastD = s.lastD := by
  obtain ⟨a, b, c, d, n, dr, sw, la, lb, lc, ld⟩ := s
  by_cases hsw : v = 0
  · simp [stepInput, stepLights, stepA, stepC, stepB, stepD, printStates, hsw]
  · cases a <;> cases c <;> cases dr <;>
      simp [stepInput, stepLights, stepA, stepC, stepB, stepD, printStates, hsw]

theorem stepLights_fields (s : State) :
    (stepLights s).stepNumber = (s.stepNumber + 1) % UINT_MODULUS ∧
      (stepLights s).switchState = s.switchState := by
  obtain ⟨a, b, c, d, n, dr, sw, la, lb, lc, ld⟩ := s
  by_cases hsw : sw = 0
  · simp [stepLights, stepA, stepC, stepB, stepD, printStates, hsw]
  · cases a <;> cases c <;> cases dr <;>
      simp [stepLights, stepA, stepC, stepB, stepD, printStates, hsw]

theorem propertiesHold_fst (s : State) :
    (propertiesHold s).1 = true ↔
      (¬ (s.stateA = Green ∧ s.dir = true) ∧ s.stateA = s.stateD ∧ s.stateB = s.stateC ∧
        successorsValid s.lastA s.stateA = true ∧ successorsValid s.lastB s.stateB = true ∧
        successorsValid s.lastC s.stateC = true ∧ successorsValid s.lastD s.stateD = true) := by
  simp only [propertiesHold]
  constructor
  · intro h
    split_ifs at h <;> simp_all
  · intro h
    obtain ⟨h1, h2, h3, h4, h5, h6, h7⟩ := h
    simp_all
    tauto

theorem propertiesHold_snd (s : State) :
    (propertiesHold s).2 =
      { s with lastA := s.stateA, lastB := s.stateB, lastC := s.stateC, lastD := s.stateD } := by
  rfl

theorem inv_propertiesHold (s : State) (h : Inv s) :
    Inv (propertiesHold s).2 ∧ Synced (propertiesHold s).2 := by
  rw [propertiesHold_snd]
  exact ⟨h, rfl, rfl, rfl, rfl⟩

theorem propertiesHold_of_inv (s t : State) (ht : Inv t)
    (hA : successorsValid s.stateA t.stateA = true)
    (hB : successorsValid s.stateB t.stateB = true)
    (hC : successorsValid s.stateC t.stateC = true)
    (hD : successorsValid s.stateD t.stateD = true)
    (hl : t.lastA = s.lastA ∧ t.lastB = s.lastB ∧ t.lastC = s.lastC ∧ t.lastD = s.lastD)
    (hsync : Synced s) : (propertiesHold t).1 = true := by
  obtain ⟨lA, lB, lC, lD⟩ := hl
  obtain ⟨sA, sB, sC, sD⟩ := hsync
  obtain ⟨tb, td, tc⟩ := ht
  rw [propertiesHold_fst, lA, lB, lC, lD, sA, sB, sC, sD]
  refine ⟨?_, td.symm, tb, hA, hB, hC, hD⟩
  rintro ⟨hg, hdir⟩
  rcases tc with ⟨h1, _⟩ | ⟨_, _, h2⟩ | ⟨h1, _⟩ | ⟨h1, _⟩
  · rw [hg] at h1; exact absurd h1 (by decide)
  · rw [hdir] at h2; exact absurd h2 (by decide)
  · rw [hg] at h1; exact absurd h1 (by decide)
  · rw [hg] at h1; exact absurd h1 (by decide)

theorem propertiesHold_stepInput (s : State) (v : Int) (hv : v = 0 ∨ v = 1) (h : Inv s)
    (hsync : Synced s) : (propertiesHold (stepInput s v)).1 = true :=
  propertiesHold_of_inv s (stepInput s v) (inv_stepInput s v hv h)
    (successorsValid_stepInput s v hv h Light.A)
    (successorsValid_stepInput s v hv h Light.B)
    (successorsValid_stepInput s v hv h Light.C)
    (successorsValid_stepInput s v hv h Light.D)
    (stepInput_last s v) hsync

theorem mainLoop_running (inputs : List Int) (s : State)
    (hin : ∀ v ∈ inputs, v = 0 ∨ v = 1) (h : Inv s) (hsync : Synced s) :
    ∃ t, mainLoop inputs s = (List.replicate inputs.length true, Outcome.running t) := by
  induction inputs generalizing s with
  | nil => exact ⟨s, rfl⟩
  | cons v vs ih =>
    have hv : v = 0 ∨ v = 1 := hin v (List.mem_cons_self v vs)
    have hvs : ∀ w ∈ vs, w = 0 ∨ w = 1 := fun w hw => hin w (List.mem_cons_of_mem v hw)
    have hok := propertiesHold_stepInput s v hv h hsync
    have hnext := inv_propertiesHold (stepInput s v) (inv_stepInput s v hv h)
    obtain ⟨t, ht⟩ := ih (propertiesHold (stepInput s v)).2 hvs hnext.1 hnext.2
    refine ⟨t, ?_⟩
    have hget : getUserInput v s = some { s with switchState := v } := by
      simp [getUserInput, hv]
    simp only [mainLoop, hget]
    simp only [stepInput] at hok ht
    simp [hok, ht, List.replicate_succ]

/-! ## The driver loop and the reachable states -/

/-- C1: from the initial globals, for every finite sequence of inputs each 0 or
1, `main` makes one `propertiesHold` call before the loop and one per input,
every one of them returns true, and the execution is still running afterwards:
`VERIFIER_ERROR()` is not reached. -/
theorem main_checks_all_true (inputs : List Int) (hin : ∀ v ∈ inputs, v = 0 ∨ v = 1) :
    ∃ t, main inputs = (List.replicate (inputs.length + 1) true, Outcome.running t) := by
  have h0 : (propertiesHold initial).1 = true := by decide
  have hnext := inv_propertiesHold initial inv_initial
  obtain ⟨t, ht⟩ := mainLoop_running inputs (propertiesHold initial).2 hin hnext.1 hnext.2
  refine ⟨t, ?_⟩
  simp [main, mainFrom, printStates, h0, ht, List.replicate_succ]

theorem main_checks_all_true_witness :
    (∀ v ∈ [1, 1, 0, 1], v = 0 ∨ v = 1) ∧
      ∃ t, main [1, 1, 0, 1] = (List.replicate ([1, 1, 0, 1].length + 1) true, Outcome.running t) :=
  ⟨by decide, main_checks_all_true [1, 1, 0, 1] (by decide)⟩

/-- C2: in every state reached from the initial state by `stepLights` calls with
inputs in {0,1}, `stateA` equals `stateD` and `stateB` equals `stateC`. -/
theorem mirror_reachable (inputs : List Int) (hin : ∀ v ∈ inputs, v = 0 ∨ v = 1) :
    (runSteps initial inputs).stateA = (runSteps initial inputs).stateD ∧
      (runSteps initial inputs).stateB = (runSteps initial inputs).stateC := by
  obtain ⟨hb, hd, _⟩ := inv_runSteps inputs initial hin inv_initial
  exact ⟨hd.symm, hb⟩

theorem mirror_reachable_witness :
    (∀ v ∈ [1, 1, 1, 0, 1], v = 0 ∨ v = 1) ∧
      (runSteps initial [1, 1, 1, 0, 1]).stateA = (runSteps initial [1, 1, 1, 0, 1]).stateD ∧
      (runSteps initial [1, 1, 1, 0, 1]).stateB = (runSteps initial [1, 1, 1, 0, 1]).stateC :=
  ⟨by decide, mirror_reachable [1, 1, 1, 0, 1] (by decide)⟩

/-- C3: in every state reached from the initial state by `stepLights` calls with
inputs in {0,1}, if `stateA` is Green then `dir` is false. -/
theorem green_dir_reachable (inputs : List Int) (hin : ∀ v ∈ inputs, v = 0 ∨ v = 1)
    (hgreen : (runSteps initial inputs).stateA = Green) :
    (runSteps initial inputs).dir = false := by
  obtain ⟨_, _, hc⟩ := inv_runSteps inputs initial hin inv_initial
  rcases hc with ⟨h1, _⟩ | ⟨_, _, h2⟩ | ⟨h1, _⟩ | ⟨h1, _⟩
  · rw [hgreen] at h1; exact absurd h1 (by decide)
  · exact h2
  · rw [hgreen] at h1; exact absurd h1 (by decide)
  · rw [hgreen] at h1; exact absurd h1 (by decide)

theorem green_dir_reachable_witness :
    (∀ v ∈ [1, 1, 1, 1, 1], v = 0 ∨ v = 1) ∧
      (runSteps initial [1, 1, 1, 1, 1]).stateA = Green ∧
      (runSteps initial [1, 1, 1, 1, 1]).dir = false :=
  ⟨by decide, by decide, green_dir_reachable [1, 1, 1, 1, 1] (by decide) (by decide)⟩

/-- C4: for every input sequence over {0,1} from the initial state and every
further input in {0,1}, each of the four lights has, across that `stepLights`
call, a transition accepted by `successorsValid`; in particular it is not
Red to Green, Green to Red or Off to Yellow. -/
theorem transitions_valid_reachable (inputs : List Int) (v : Int)
    (hin : ∀ w ∈ inputs, w = 0 ∨ w = 1) (hv : v = 0 ∨ v = 1) (l : Light) :
    successorsValid (phase (runSteps initial inputs) l)
        (phase (stepInput (runSteps initial inputs) v) l) = true ∧
      ¬ (phase (runSteps initial inputs) l = Red ∧
          phase (stepInput (runSteps initial inputs) v) l = Green) ∧
      ¬ (phase (runSteps initial inputs) l = Green ∧
          phase (stepInput (runSteps initial inputs) v) l = Red) ∧
      ¬ (phase (runSteps initial inputs) l = Off ∧
          phase (stepInput (runSteps initial inputs) v) l = Yellow) := by
  have h := successorsValid_stepInput (runSteps initial inputs) v hv
    (inv_runSteps inputs initial hin inv_initial) l
  refine ⟨h, ?_, ?_, ?_⟩ <;>
    · rintro ⟨h1, h2⟩
      rw [h1, h2] at h
      exact absurd h (by decide)

theorem transitions_valid_reachable_witness :
    (∀ w ∈ [1, 1], w = 0 ∨ w = 1) ∧ ((1 : Int) = 0 ∨ (1 : Int) = 1) ∧
      phase (runSteps initial [1, 1]) Light.C = Yellow ∧
      phase (stepInput (runSteps initial [1, 1]) 1) Light.C = Green ∧
      successorsValid (phase (runSteps initial [1, 1]) Light.C)
        (phase (stepInput (runSteps initial [1, 1]) 1) Light.C) = true :=
  ⟨by decide, by decide, by decide, by decide,
    (transitions_valid_reachable [1, 1] 1 (by decide) (by decide) Light.C).1⟩

/-- C5: in every state reached from the initial state by `stepLights` calls with
inputs in {0,1}, `stateA` and `stateC` are not both Green. -/
theorem not_both_green_reachable (inputs : List Int) (hin : ∀ v ∈ inputs, v = 0 ∨ v = 1) :
    ¬ ((runSteps initial inputs).stateA = Green ∧ (runSteps initial inputs).stateC = Green) := by
  obtain ⟨_, _, hc⟩ := inv_runSteps inputs initial hin inv_initial
  rintro ⟨hA, hC⟩
  rcases hc with ⟨h1, _⟩ | ⟨_, h2, _⟩ | ⟨h1, _⟩ | ⟨h1, _⟩
  · rw [hA] at h1; exact absurd h1 (by decide)
  · rw [hC] at h2; exact absurd h2 (by decide)
  · rw [hA] at h1; exact absurd h1 (by decide)
  · rw [hA] at h1; exact absurd h1 (by decide)

theorem not_both_green_reachable_witness :
    (∀ v ∈ [1, 1, 1], v = 0 ∨ v = 1) ∧
      (runSteps initial [1, 1, 1]).stateC = Green ∧
      ¬ ((runSteps initial [1, 1, 1]).stateA = Green ∧
          (runSteps initial [1, 1, 1]).stateC = Green) :=
  ⟨by decide, by decide, not_both_green_reachable [1, 1, 1] (by decide)⟩

/-! ## The invariant checker -/

/-- C6: `successorsValid prev next` is true exactly when `next` is Off, or `prev`
is Red and `next` is Yellow or Red, or `prev` is Yellow and `next` is Green, Red
or Yellow, or `prev` is Green and `next` is Yellow or Green, or `prev` is Off and
`next` is Off, Red or Green; it is false exactly on Red to Green, Green to Red
and Off to Yellow. -/
theorem successorsValid_spec (prev next : color) :
    (successorsValid prev next = true ↔
      (next = Off ∨
        (prev = Red ∧ (next = Yellow ∨ next = Red)) ∨
        (prev = Yellow ∧ (next = Green ∨ next = Red ∨ next = Yellow)) ∨
        (prev = Green ∧ (next = Yellow ∨ next = Green)) ∨
        (prev = Off ∧ (next = Off ∨ next = Red ∨ next = Green)))) ∧
    (successorsValid prev next = false ↔
      ((prev = Red ∧ next = Green) ∨ (prev = Green ∧ next = Red) ∨
        (prev = Off ∧ next = Yellow))) := by
  cases prev <;> cases next <;> decide

/-- C7: for every state, `propertiesHold` returns true if and only if all seven
predicates hold on the state at the call: not (`stateA` Green and `dir` true),
`stateA = stateD`, `stateB = stateC`, and `successorsValid` of each light's
remembered phase and its current phase. -/
theorem propertiesHold_true_iff (s : State) :
    (propertiesHold s).1 = true ↔
      (¬ (s.stateA = Green ∧ s.dir = true) ∧ s.stateA = s.stateD ∧ s.stateB = s.stateC ∧
        successorsValid s.lastA s.stateA = true ∧ successorsValid s.lastB s.stateB = true ∧
        successorsValid s.lastC s.stateC = true ∧ successorsValid s.lastD s.stateD = true) :=
  propertiesHold_fst s

/-- C8: for every state, whatever `propertiesHold` returns, after the call
`lastA..lastD` equal `stateA..stateD`, and `stateA..stateD`, `dir`,
`switchState` and `stepNumber` are unchanged. -/
theorem propertiesHold_frame (s : State) :
    (propertiesHold s).2.lastA = s.stateA ∧ (propertiesHold s).2.lastB = s.stateB ∧
      (propertiesHold s).2.lastC = s.stateC ∧ (propertiesHold s).2.lastD = s.stateD ∧
      (propertiesHold s).2.stateA = s.stateA ∧ (propertiesHold s).2.stateB = s.stateB ∧
      (propertiesHold s).2.stateC = s.stateC ∧ (propertiesHold s).2.stateD = s.stateD ∧
      (propertiesHold s).2.dir = s.dir ∧ (propertiesHold s).2.switchState = s.switchState ∧
      (propertiesHold s).2.stepNumber = s.stepNumber := by
  rw [propertiesHold_snd]
  exact ⟨rfl, rfl, rfl, rfl, rfl, rfl, rfl, rfl, rfl, rfl, rfl⟩

/-! ## The transition rules -/

/-- C9: `stepA` follows A's rule. With `switchState` 0 it sets `stateA` to Off
and leaves `dir`; otherwise Red and Green go to Yellow with `dir` unchanged,
Yellow with `dir` true goes to Green with `dir` false, Yellow with `dir` false
goes to Red with `dir` true, Off goes to Green with `dir` false. No variable
other than `stateA` and `dir` changes. -/
theorem stepA_rule (s : State) :
    (s.switchState = 0 → stepA s = { s with stateA := Off }) ∧
    (s.switchState ≠ 0 → s.stateA = Red → stepA s = { s with stateA := Yellow }) ∧
    (s.switchState ≠ 0 → s.stateA = Green → stepA s = { s with stateA := Yellow }) ∧
    (s.switchState ≠ 0 → s.stateA = Yellow → s.dir = true →
      stepA s = { s with stateA := Green, dir := false }) ∧
    (s.switchState ≠ 0 → s.stateA = Yellow → s.dir = false →
      stepA s = { s with stateA := Red, dir := true }) ∧
    (s.switchState ≠ 0 → s.stateA = Off →
      stepA s = { s with stateA := Green, dir := false }) ∧
    stepA s = { s with stateA := (stepA s).stateA, dir := (stepA s).dir } := by
  obtain ⟨a, b, c, d, n, dr, sw, la, lb, lc, ld⟩ := s
  refine ⟨?_, ?_, ?_, ?_, ?_, ?_, ?_⟩
  · intro h0
    simp only at h0
    simp [stepA, h0]
  · intro h0 ha
    simp only at h0 ha
    simp [stepA, h0, ha]
  · intro h0 ha
    simp only at h0 ha
    simp [stepA, h0, ha]
  · intro h0 ha hd
    simp only at h0 ha hd
    simp [stepA, h0, ha, hd]
  · intro h0 ha hd
    simp only at h0 ha hd
    simp [stepA, h0, ha, hd]
  · intro h0 ha
    simp only at h0 ha
    simp [stepA, h0, ha]
  · by_cases h0 : sw = 0
    · simp [stepA, h0]
    · cases a <;> cases dr <;> simp [stepA, h0]

/-- C10: `stepC` follows C's rule. With `switchState` 0 it sets `stateC` to Off;
otherwise Red and Green go to Yellow, Yellow goes to Red when `dir` is false and
to Green when `dir` is true, Off goes to Red. `stepC` changes no variable other
than `stateC`, and `stepC`, `stepB` and `stepD` leave `dir` as it is, whereas
`stepA` does change `dir` on some state. -/
theorem stepC_rule (s : State) :
    (s.switchState = 0 → stepC s = { s with stateC := Off }) ∧
    (s.switchState ≠ 0 → s.stateC = Red → stepC s = { s with stateC := Yellow }) ∧
    (s.switchState ≠ 0 → s.stateC = Green → stepC s = { s with stateC := Yellow }) ∧
    (s.switchState ≠ 0 → s.stateC = Yellow → s.dir = false →
      stepC s = { s with stateC := Red }) ∧
    (s.switchState ≠ 0 → s.stateC = Yellow → s.dir = true →
      stepC s = { s with stateC := Green }) ∧
    (s.switchState ≠ 0 → s.stateC = Off → stepC s = { s with stateC := Red }) ∧
    stepC s = { s with stateC := (stepC s).stateC } ∧
    (stepC s).dir = s.dir ∧ (stepB s).dir = s.dir ∧ (stepD s).dir = s.dir ∧
    (∃ t : State, (stepA t).dir ≠ t.dir) := by
  obtain ⟨a, b, c, d, n, dr, sw, la, lb, lc, ld⟩ := s
  have hframe : stepC ⟨a, b, c, d, n, dr, sw, la, lb, lc, ld⟩ =
      { (⟨a, b, c, d, n, dr, sw, la, lb, lc, ld⟩ : State) with
        stateC := (stepC ⟨a, b, c, d, n, dr, sw, la, lb, lc, ld⟩).stateC } := by
    by_cases h0 : sw = 0
    · simp [stepC, h0]
    · cases c <;> cases dr <;> simp [stepC, h0]
  refine ⟨?_, ?_, ?_, ?_, ?_, ?_, hframe, ?_, rfl, rfl, ?_⟩
  · intro h0
    simp only at h0
    simp [stepC, h0]
  · intro h0 hc
    simp only at h0 hc
    simp [stepC, h0, hc]
  · intro h0 hc
    simp only at h0 hc
    simp [stepC, h0, hc]
  · intro h0 hc hd
    simp only at h0 hc hd
    simp [stepC, h0, hc, hd]
  · intro h0 hc hd
    simp only at h0 hc hd
    simp [stepC, h0, hc, hd]
  · intro h0 hc
    simp only at h0 hc
    simp [stepC, h0, hc]
  · rw [hframe]
  · exact ⟨{ initial with stateA := Yellow, switchState := 1 }, by decide⟩

/-! ## The step engine -/

/-- C11: `stepLights` is the fixed-order composition: `stateA` and `dir` are those
computed by `stepA`; `stateC` is computed by `stepC` from the old `stateC` and
the `dir` already updated by `stepA` (which on some state differs from what the
old `dir` would give); `stateB` is the new `stateC` and `stateD` the new
`stateA`; `stepNumber` is incremented by one as an `unsigned int`; the old
`stateB` and `stateD` have no influence on the result; `lastA..lastD` and
`switchState` are unchanged. -/
theorem stepLights_composition (s : State) :
    (stepLights s).stateA = (stepA s).stateA ∧
    (stepLights s).dir = (stepA s).dir ∧
    (stepLights s).stateC = (stepC { s with dir := (stepA s).dir }).stateC ∧
    (stepLights s).stateB = (stepLights s).stateC ∧
    (stepLights s).stateD = (stepLights s).stateA ∧
    (stepLights s).stepNumber = (s.stepNumber + 1) % UINT_MODULUS ∧
    (s.stepNumber + 1 < UINT_MODULUS → (stepLights s).stepNumber = s.stepNumber + 1) ∧
    (∀ b d : color, stepLights { s with stateB := b, stateD := d } = stepLights s) ∧
    (stepLights s).lastA = s.lastA ∧ (stepLights s).lastB = s.lastB ∧
    (stepLights s).lastC = s.lastC ∧ (stepLights s).lastD = s.lastD ∧
    (stepLights s).switchState = s.switchState ∧
    (∃ t : State, (stepLights t).stateC ≠ (stepC t).stateC) := by
  obtain ⟨a, b, c, d, n, dr, sw, la, lb, lc, ld⟩ := s
  have hex : ∃ t : State, (stepLights t).stateC ≠ (stepC t).stateC :=
    ⟨{ initial with stateA := Yellow, stateC := Yellow, switchState := 1 }, by decide⟩
  by_cases h0 : sw = 0
  · refine ⟨?_, ?_, ?_, ?_, ?_, ?_, ?_, ?_, ?_, ?_, ?_, ?_, ?_, hex⟩ <;>
      first
        | (intro hlt
           simp only at hlt
           simp [stepLights, stepA, stepC, stepB, stepD, printStates, h0,
             Nat.mod_eq_of_lt hlt])
        | simp [stepLights, stepA, stepC, stepB, stepD, printStates, h0]
  · refine ⟨?_, ?_, ?_, ?_, ?_, ?_, ?_, ?_, ?_, ?_, ?_, ?_, ?_, hex⟩ <;>
      first
        | (intro hlt
           simp only at hlt
           cases a <;> cases c <;> cases dr <;>
             simp [stepLights, stepA, stepC, stepB, stepD, printStates, h0,
               Nat.mod_eq_of_lt hlt])
        | (cases a <;> cases c <;> cases dr <;>
             simp [stepLights, stepA, stepC, stepB, stepD, printStates, h0])

/-- C12: for every state, one `stepLights` call with `switchState` equal to 0
leaves `stateA`, `stateB`, `stateC` and `stateD` all Off. -/
theorem stepLights_power_off (s : State) (h0 : s.switchState = 0) :
    (stepLights s).stateA = Off ∧ (stepLights s).stateB = Off ∧
      (stepLights s).stateC = Off ∧ (stepLights s).stateD = Off := by
  simp [stepLights, stepA, stepC, stepB, stepD, printStates, h0]

theorem stepLights_power_off_witness :
    redGreenState.switchState = 0 ∧
      (stepLights redGreenState).stateA = Off ∧ (stepLights redGreenState).stateB = Off ∧
      (stepLights redGreenState).stateC = Off ∧ (stepLights redGreenState).stateD = Off :=
  ⟨by decide, stepLights_power_off redGreenState (by decide)⟩

/-- C13: for every state in which all four lights are Off, with either value of
`dir`, one `stepLights` call with `switchState` equal to 1 yields `stateA` Green
and `stateC` Red (not `stateA` Red and `stateC` Green), with `stateD` Green,
`stateB` Red and `dir` false. -/
theorem stepLights_restart (s : State) (hA : s.stateA = Off) (hB : s.stateB = Off)
    (hC : s.stateC = Off) (hD : s.stateD = Off) (h1 : s.switchState = 1) :
    (stepLights s).stateA = Green ∧ (stepLights s).stateC = Red ∧
      ¬ ((stepLights s).stateA = Red ∧ (stepLights s).stateC = Green) ∧
      (stepLights s).stateD = Green ∧ (stepLights s).stateB = Red ∧
      (stepLights s).dir = false := by
  obtain ⟨a, b, c, d, n, dr, sw, la, lb, lc, ld⟩ := s
  simp only at hA hB hC hD h1
  subst hA hB hC hD h1
  simp [stepLights, stepA, stepC, stepB, stepD, printStates]

theorem stepLights_restart_witness :
    offDirTrueState.stateA = Off ∧ offDirTrueState.stateB = Off ∧
      offDirTrueState.stateC = Off ∧ offDirTrueState.stateD = Off ∧
      offDirTrueState.switchState = 1 ∧
      (stepLights offDirTrueState).stateA = Green ∧
      (stepLights offDirTrueState).stateC = Red :=
  ⟨by decide, by decide, by decide, by decide, by decide,
    (stepLights_restart offDirTrueState
      (by decide) (by decide) (by decide) (by decide) (by decide)).1,
    (stepLights_restart offDirTrueState
      (by decide) (by decide) (by decide) (by decide) (by decide)).2.1⟩

/-! ## The all-ones scenario and power-off -/

/-- C14: from the initial state, stepping with input 1 gives after step 1
A=Green, C=Red, B=Red, D=Green; after step 2 all four Yellow; after step 3
A=Red, C=Green, B=Green, D=Red; after step 4 A=Yellow, C=Yellow; after step 5
A=Green, C=Red; and `main` on these five inputs gets true from the initial
`propertiesHold` call and from the call after each step. -/
theorem ones_scenario :
    ((onesRun 1).stateA = Green ∧ (onesRun 1).stateC = Red ∧
      (onesRun 1).stateB = Red ∧ (onesRun 1).stateD = Green) ∧
    ((onesRun 2).stateA = Yellow ∧ (onesRun 2).stateB = Yellow ∧
      (onesRun 2).stateC = Yellow ∧ (onesRun 2).stateD = Yellow) ∧
    ((onesRun 3).stateA = Red ∧ (onesRun 3).stateC = Green ∧
      (onesRun 3).stateB = Green ∧ (onesRun 3).stateD = Red) ∧
    ((onesRun 4).stateA = Yellow ∧ (onesRun 4).stateC = Yellow) ∧
    ((onesRun 5).stateA = Green ∧ (onesRun 5).stateC = Red) ∧
    (main [1, 1, 1, 1, 1]).1 = [true, true, true, true, true, true] ∧
    (∃ t, (main [1, 1, 1, 1, 1]).2 = Outcome.running t) := by
  refine ⟨by decide, by decide, by decide, by decide, by decide, by decide, ?_⟩
  exact ⟨(propertiesHold (onesRun 5)).2, by decide⟩

/-- C15 (as stated, refuted): in the all-ones scenario `dir` is not true after
the second `stepLights` call, and it is not false after the fourth. -/
theorem dir_flip_steps_refuted :
    ¬ ((onesRun 1).dir = false ∧ (onesRun 2).dir = true ∧
        (onesRun 3).dir = true ∧ (onesRun 4).dir = false) := by
  decide

/-- C15 (amended): in the all-ones scenario `dir` flips to true during step 3
(false after steps 1 and 2, true after step 3) and flips back to false during
step 5 (true after step 4, false after step 5). -/
theorem dir_flip_steps :
    (onesRun 0).dir = false ∧ (onesRun 1).dir = false ∧ (onesRun 2).dir = false ∧
      (onesRun 3).dir = true ∧ (onesRun 4).dir = true ∧ (onesRun 5).dir = false := by
  decide

/-- C16: for every state, whatever the phases, `dir` and the history, one
`stepLights` call with input 0 followed by `propertiesHold` makes
`propertiesHold` return true, every light then being Off, which
`successorsValid` accepts after any phase. -/
theorem propertiesHold_after_power_off (s : State) :
    (propertiesHold (stepInput s 0)).1 = true ∧
      (∀ prev : color, successorsValid prev Off = true) ∧
      (propertiesHold (stepInput redGreenState 0)).1 = true := by
  refine ⟨?_, ?_, by decide⟩
  · obtain ⟨a, b, c, d, n, dr, sw, la, lb, lc, ld⟩ := s
    rw [propertiesHold_fst]
    simp [stepInput, stepLights, stepA, stepC, stepB, stepD, printStates, successorsValid]
  · intro prev
    cases prev <;> decide

/-! ## The step counter and the direction flag -/

/-- C17 (as stated, refuted): at `stepNumber = 4294967295` one `stepLights` call
leaves `stepNumber` at 0, which is not greater than the value before. -/
theorem stepNumber_wraps_at_max :
    maxStepState.stepNumber = 4294967295 ∧ (stepLights maxStepState).stepNumber = 0 ∧
      ¬ (maxStepState.stepNumber < (stepLights maxStepState).stepNumber) := by
  decide

/-- C17 (amended): for every state whose `stepNumber` is below the largest
`unsigned int`, one `stepLights` call increments `stepNumber` exactly once, so
the value after the call is strictly greater than the value before. -/
theorem stepNumber_increases (s : State) (h : s.stepNumber < UINT_MODULUS - 1) :
    (stepLights s).stepNumber = s.stepNumber + 1 ∧
      s.stepNumber < (stepLights s).stepNumber := by
  have hlt : s.stepNumber + 1 < UINT_MODULUS := by
    have hpos : 0 < UINT_MODULUS := by decide
    omega
  have hstep : (stepLights s).stepNumber = (s.stepNumber + 1) % UINT_MODULUS :=
    (stepLights_fields s).1
  rw [hstep, Nat.mod_eq_of_lt hlt]
  exact ⟨rfl, Nat.lt_succ_self _⟩

theorem stepNumber_increases_witness :
    redGreenState.stepNumber < UINT_MODULUS - 1 ∧
      (stepLights redGreenState).stepNumber = redGreenState.stepNumber + 1 ∧
      redGreenState.stepNumber < (stepLights redGreenState).stepNumber :=
  ⟨by decide, stepNumber_increases redGreenState (by decide)⟩

/-- C18 (as stated, refuted): two states that differ only in `dir`, with light C
Yellow and the power on, get different `stateC` from `stepC`: Red for `dir`
false, Green for `dir` true. -/
theorem stepC_reads_dir :
    yellowCState true = { yellowCState false with dir := true } ∧
      (stepC (yellowCState false)).stateC = Red ∧
      (stepC (yellowCState true)).stateC = Green ∧
      (stepC (yellowCState false)).stateC ≠ (stepC (yellowCState true)).stateC := by
  decide

/-- C18 (amended): `dir` is written only by `stepA` but read by `stepC` too. For
two states that differ only in `dir`, `stepC` produces the same `stateC` when
`switchState` is 0 or `stateC` is not Yellow; when `switchState` is nonzero and
`stateC` is Yellow, the new `stateC` is Green for `dir` true and Red for `dir`
false. `stepC` itself leaves `dir` unchanged. -/
theorem stepC_dir_dependence (s : State) (d : Bool) :
    ((s.switchState = 0 ∨ s.stateC ≠ Yellow) →
      (stepC { s with dir := d }).stateC = (stepC s).stateC) ∧
    (s.switchState ≠ 0 → s.stateC = Yellow →
      (stepC { s with dir := true }).stateC = Green ∧
      (stepC { s with dir := false }).stateC = Red) ∧
    (stepC s).dir = s.dir := by
  obtain ⟨a, b, c, e, n, dr, sw, la, lb, lc, ld⟩ := s
  refine ⟨?_, ?_, ?_⟩
  · intro h
    simp only at h
    by_cases h0 : sw = 0
    · simp [stepC, h0]
    · cases c <;> simp_all [stepC]
  · intro h0 hc
    simp only at h0 hc
    simp [stepC, h0, hc]
  · by_cases h0 : sw = 0
    · simp [stepC, h0]
    · cases c <;> cases dr <;> simp [stepC, h0]

/-! ## The cycle under constant power -/

theorem runSteps_append (s : State) (xs ys : List Int) :
    runSteps s (xs ++ ys) = runSteps (runSteps s xs) ys := by
  simp [runSteps, List.foldl_append]

theorem onesRun_succ (n : Nat) : onesRun (n + 1) = stepInput (onesRun n) 1 := by
  have hrep : List.replicate (n + 1) (1 : Int) = List.replicate n 1 ++ [1] := by
    rw [List.replicate_succ', List.append_cancel_left_eq]
  rw [onesRun, hrep, runSteps_append]
  rfl

theorem onesRun_add_four (n : Nat) : onesRun (n + 4) = runSteps (onesRun n) [1, 1, 1, 1] := by
  have hrep : List.replicate (n + 4) (1 : Int) = List.replicate n 1 ++ [1, 1, 1, 1] := by
    rw [List.replicate_add]
    rfl
  rw [onesRun, hrep, runSteps_append]
  rfl

theorem inv_onesRun (n : Nat) : Inv (onesRun n) :=
  inv_runSteps (List.replicate n 1) initial
    (fun _ hv => Or.inr (List.eq_of_mem_replicate hv)) inv_initial

theorem stepInput_one_stateA (s : State) : (stepInput s 1).stateA ≠ Off := by
  obtain ⟨a, b, c, d, n, dr, sw, la, lb, lc, ld⟩ := s
  cases a <;> cases c <;> cases dr <;>
    simp [stepInput, stepLights, stepA, stepC, stepB, stepD, printStates]

theorem four_ones_cycle (s : State) (h : Inv s) (hA : s.stateA ≠ Off) :
    (runSteps s [1, 1, 1, 1]).stateA = s.stateA ∧ (runSteps s [1, 1, 1, 1]).stateB = s.stateB ∧
      (runSteps s [1, 1, 1, 1]).stateC = s.stateC ∧
      (runSteps s [1, 1, 1, 1]).stateD = s.stateD ∧
      (runSteps s [1, 1, 1, 1]).dir = s.dir := by
  obtain ⟨a, b, c, d, n, dr, sw, la, lb, lc, ld⟩ := s
  obtain ⟨hb, hd, hc⟩ := h
  simp only at hb hd hc hA
  subst hb hd
  cases dr <;>
    rcases hc with ⟨rfl, rfl⟩ | ⟨rfl, rfl, hdir⟩ | ⟨rfl, rfl⟩ | ⟨rfl, rfl, hdir⟩ <;>
    first
      | exact absurd rfl hA
      | exact absurd hdir (by decide)
      | simp [runSteps, stepInput, stepLights, stepA, stepC, stepB, stepD, printStates]

/-- C19: under constant power the cycle has period four: from the initial state
with input 1 at every step, for every `n ≥ 1` the phases of all four lights and
`dir` after step `n + 4` equal those after step `n`. -/
theorem ones_period_four (n : Nat) (hn : 1 ≤ n) :
    (onesRun (n + 4)).stateA = (onesRun n).stateA ∧
      (onesRun (n + 4)).stateB = (onesRun n).stateB ∧
      (onesRun (n + 4)).stateC = (onesRun n).stateC ∧
      (onesRun (n + 4)).stateD = (onesRun n).stateD ∧
      (onesRun (n + 4)).dir = (onesRun n).dir := by
  obtain ⟨m, rfl⟩ : ∃ m, n = m + 1 := ⟨n - 1, by omega⟩
  have hA : (onesRun (m + 1)).stateA ≠ Off := by
    rw [onesRun_succ]
    exact stepInput_one_stateA (onesRun m)
  rw [onesRun_add_four]
  exact four_ones_cycle (onesRun (m + 1)) (inv_onesRun (m + 1)) hA

theorem ones_period_four_witness :
    1 ≤ 2 ∧ (onesRun (2 + 4)).stateA = (onesRun 2).stateA ∧
      (onesRun (2 + 4)).stateB = (onesRun 2).stateB ∧
      (onesRun (2 + 4)).stateC = (onesRun 2).stateC ∧
      (onesRun (2 + 4)).stateD = (onesRun 2).stateD ∧
      (onesRun (2 + 4)).dir = (onesRun 2).dir :=
  ⟨by decide, ones_period_four 2 (by decide)⟩

/-- C20: in every state reached from the initial state by `stepLights` calls with
inputs in {0,1}, the pair (`stateA`, `stateC`) is one of (Off, Off),
(Green, Red), (Yellow, Yellow), (Red, Green); so A is Off exactly when C is Off,
A is Yellow exactly when C is Yellow, and A is Green exactly when C is Red. -/
theorem complementary_reachable (inputs : List Int) (hin : ∀ v ∈ inputs, v = 0 ∨ v = 1) :
    (((runSteps initial inputs).stateA = Off ∧ (runSteps initial inputs).stateC = Off) ∨
      ((runSteps initial inputs).stateA = Green ∧ (runSteps initial inputs).stateC = Red) ∨
      ((runSteps initial inputs).stateA = Yellow ∧
        (runSteps initial inputs).stateC = Yellow) ∨
      ((runSteps initial inputs).stateA = Red ∧
        (runSteps initial inputs).stateC = Green)) ∧
    ((runSteps initial inputs).stateA = Off ↔ (runSteps initial inputs).stateC = Off) ∧
    ((runSteps initial inputs).stateA = Yellow ↔
      (runSteps initial inputs).stateC = Yellow) ∧
    ((runSteps initial inputs).stateA = Green ↔ (runSteps initial inputs).stateC = Red) := by
  obtain ⟨_, _, hc⟩ := inv_runSteps inputs initial hin inv_initial
  generalize (runSteps initial inputs).stateA = a at hc ⊢
  generalize (runSteps initial inputs).stateC = c at hc ⊢
  rcases hc with ⟨rfl, rfl⟩ | ⟨rfl, rfl, _⟩ | ⟨rfl, rfl⟩ | ⟨rfl, rfl, _⟩ <;> decide

theorem complementary_reachable_witness :
    (∀ v ∈ [1, 0, 1, 1, 1], v = 0 ∨ v = 1) ∧
      (runSteps initial [1, 0, 1, 1, 1]).stateA = Red ∧
      (runSteps initial [1, 0, 1, 1, 1]).stateC = Green ∧
      ((runSteps initial [1, 0, 1, 1, 1]).stateA = Green ↔
        (runSteps initial [1, 0, 1, 1, 1]).stateC = Red) :=
  ⟨by decide, by decide, by decide,
    (complementary_reachable [1, 0, 1, 1, 1] (by decide)).2.2.2⟩

end TrafficLight
